import Mathlib

/-!
Shallow embedding of the analytical core of `src/streamlit_app.py`
(CardBoard Compass): data cleaning, monthly aggregation, the forecast
confidence band, MACD bucketing, seasonal best-buy detection, and the
two-category comparison logic, together with theorems settling the
specification claims about them.

Numeric columns are modelled with `ℚ` (exact arithmetic standing in for
IEEE floats), first-of-month dates as explicit (year, month) pairs, and
pandas frames as lists of rows.  External library routines that are not
part of the repository (the statsmodels exponential-smoothing optimizer,
numpy's standard deviation) enter as explicit function parameters or as
spec-modelled validation; each such spot is marked in its doc comment.
-/

namespace Compass

/-- Error taxonomy named by the specification (section 7). -/
inductive Err where
  | ParseError
  | EmptyCategoryError
  | ModelFitError
  | InsufficientDataError
  | DivisionByZeroError
  deriving DecidableEq, Repr

/-- A first-of-month date, as `clean_data` builds one from (Year, Month). -/
structure Date where
  year : Int
  month : Nat
  deriving DecidableEq, Repr

/-- Linear key of a date (month count); orders dates chronologically. -/
def dkey (d : Date) : Int := d.year * 12 + (d.month : Int)

/-- Chronological order on dates, the `sort_values(by='Date')` order. -/
def dateLE (a b : Date) : Prop := dkey a ≤ dkey b

instance : DecidableRel dateLE := fun a b => inferInstanceAs (Decidable (dkey a ≤ dkey b))

instance : IsTotal Date dateLE := ⟨fun a b => le_total (dkey a) (dkey b)⟩

instance : IsTrans Date dateLE := ⟨fun _ _ _ hab hbc => le_trans hab hbc⟩

/-- A pandas cell of the Month column: a month name before the in-place
conversion, a month number after it. -/
inductive MonthCell where
  | name (s : String)
  | num (n : Nat)
  deriving DecidableEq, Repr

/-- One row of the raw frame.  The `date` field is `none` until the Date
column has been assigned. -/
structure RawRow where
  category : String
  year : Int
  month : MonthCell
  marketValue : ℚ
  date : Option Date
  deriving DecidableEq, Repr

/-- Full English month names recognized by the `%B` format. -/
def month_names : List (String × Nat) :=
  [("January", 1), ("February", 2), ("March", 3), ("April", 4), ("May", 5),
   ("June", 6), ("July", 7), ("August", 8), ("September", 9), ("October", 10),
   ("November", 11), ("December", 12)]

/-- Parse one full month name, as `pd.to_datetime(, format='%B')` does. -/
def parse_month_name (s : String) : Option Nat := month_names.lookup s

/-- Month conversion of one row, from the line
`data['Month'] = pd.to_datetime(data['Month'], format='%B').dt.month`:
anything that is not a recognized full month name raises. -/
def month_to_num (r : RawRow) : Except Err RawRow :=
  match r.month with
  | .name s =>
    match parse_month_name s with
    | some m => .ok { r with month := .num m }
    | none => .error .ParseError
  | .num _ => .error .ParseError

/-- Column-wise Month conversion; an unparsable value aborts the whole
assignment, leaving nothing written back. -/
def parse_months : List RawRow → Except Err (List RawRow)
  | [] => .ok []
  | r :: rest =>
    match month_to_num r with
    | .error e => .error e
    | .ok r2 =>
      match parse_months rest with
      | .error e => .error e
      | .ok rest2 => .ok (r2 :: rest2)

/-- Date-column assignment, from the line
`data['Date'] = pd.to_datetime(data[['Year', 'Month']].assign(DAY=1))`.
When this runs, Month always holds a number already. -/
def assign_date (r : RawRow) : RawRow :=
  { r with date := match r.month with
      | .num m => some ⟨r.year, m⟩
      | .name _ => none }

/-- Sort key of a row under `sort_values(by='Date')`. -/
def row_key (r : RawRow) : Int :=
  match r.date with
  | some d => dkey d
  | none => 0

/-- Row order by derived date. -/
def rawLE (a b : RawRow) : Prop := row_key a ≤ row_key b

instance : DecidableRel rawLE := fun a b => inferInstanceAs (Decidable (row_key a ≤ row_key b))

instance : IsTotal RawRow rawLE := ⟨fun a b => le_total (row_key a) (row_key b)⟩

instance : IsTrans RawRow rawLE := ⟨fun _ _ _ hab hbc => le_trans hab hbc⟩

/-- The cleaner `clean_data`.  The first component of the result is the
post-call state of the caller's frame — the two column assignments write
into the argument in place — and the second component is the new sorted
frame that the function returns.  `sort_values` with its default kind
produces a by-date-sorted permutation while fixing no particular order on
date ties; `insertionSort` stands in as a representative sorted
permutation, and no theorem below about `clean_data` depends on the order
of date ties. -/
def clean_data (data : List RawRow) : Except Err (List RawRow × List RawRow) :=
  match parse_months data with
  | .error e => .error e
  | .ok converted =>
    let mutated := converted.map assign_date
    .ok (mutated, List.insertionSort rawLE mutated)

/-- One record of the cleaned dataset as consumed by the analysis pipeline:
category, first-of-month date, market value. -/
structure Obs where
  category : String
  date : Date
  value : ℚ
  deriving DecidableEq, Repr

/-- Group-by-Date sum, from the line
`category_data.groupby(['Date']).agg({'market_value': 'sum'})` (pandas
sorts group keys ascending).  Produces the `monthly_data` frame of
`run_analysis`. -/
def sum_by_month (l : List Obs) : List (Date × ℚ) :=
  (List.insertionSort dateLE (l.map (fun o => o.date)).dedup).map
    (fun d => (d, ((l.filter (fun o => o.date = d)).map (fun o => o.value)).sum))

/-- Arithmetic mean of a series: its sum divided by its length. -/
def mean (l : List ℚ) : ℚ := l.sum / l.length

/-- Fold behind `Series.idxmin`: keeps the earliest entry attaining the
minimum (a later entry replaces the current best only when strictly
smaller). -/
def idxminGo : (Nat × ℚ) → List (Nat × ℚ) → (Nat × ℚ)
  | best, [] => best
  | best, p :: rest => if p.2 < best.2 then idxminGo p rest else idxminGo best rest

/-- Label of the first minimal entry, as `Series.idxmin` returns it (0 on
the empty series, where pandas raises instead; no claim below touches the
empty case). -/
def idxmin (l : List (Nat × ℚ)) : Nat :=
  match l with
  | [] => 0
  | p :: rest => (idxminGo p rest).1

/-- The function `calculate_best_buy_time`: group the rows of the frame it
receives by the calendar month number of the Date column (keys sorted
ascending, as pandas groupby does), take the mean of market_value within
each group, and return the mapping together with its idxmin month. -/
def calculate_best_buy_time (rows : List (Date × ℚ)) : List (Nat × ℚ) × Nat :=
  let monthly_avg :=
    (List.insertionSort (α := Nat) (fun a b => a ≤ b) (rows.map (fun r => r.1.month)).dedup).map
      (fun m => (m, mean ((rows.filter (fun r => r.1.month = m)).map (fun r => r.2))))
  (monthly_avg, idxmin monthly_avg)

/-- Claim C1's own description of SeasonalAverages, following the claim's
words: the arithmetic mean of the individual record market_value values
observed in a calendar month across all years.  Comparison definition for
claim C1 only; the program computes something else. -/
def seasonal_mean_claim (recs : List Obs) (m : Nat) : ℚ :=
  mean ((recs.filter (fun o => o.date.month = m)).map (fun o => o.value))

/-- One step list of the adjust=False exponentially weighted mean: each
output is (1 - alpha) * previous + alpha * current. -/
def ewmGo (alpha : ℚ) : ℚ → List ℚ → List ℚ
  | _, [] => []
  | prev, x :: rest =>
    let s := (1 - alpha) * prev + alpha * x
    s :: ewmGo alpha s rest

/-- The expression `series.ewm(span=span, adjust=False).mean()`: recursive
exponential moving average seeded by the first value, with
alpha = 2 / (span + 1). -/
def ewm_mean (span : ℚ) (l : List ℚ) : List ℚ :=
  match l with
  | [] => []
  | x :: rest => x :: ewmGo (2 / (span + 1)) x rest

/-- The function `calculate_macd` with its default windows 12, 26, 9:
short and long EMAs, their difference, and the signal line. -/
def calculate_macd (data : List ℚ) : List ℚ × List ℚ :=
  let short_ema := ewm_mean 12 data
  let long_ema := ewm_mean 26 data
  let macd := List.zipWith (fun a b => a - b) short_ema long_ema
  let signal := ewm_mean 9 macd
  (macd, signal)

/-- The function `bucket_macd_trends` at one value of macd_diff:
`np.select` over the ordered conditions, first match wins, default label
'Neutral'.  The thresholds 0.02 and 0.005 are 1/50 and 1/200. -/
def bucket_macd_trends (x : ℚ) : String :=
  if x > 1 / 50 then "High Upward"
  else if x > 1 / 200 then "Medium Upward"
  else if x > -(1 / 200) then "Low Upward"
  else if x > -(1 / 50) then "Low Downward"
  else if x ≤ -(1 / 50) then "High Downward"
  else "Neutral"

/-- Population variance: the square of `np.std` (which uses ddof = 0). -/
def pvariance (l : List ℚ) : ℚ := ((l.map (fun x => (x - mean l) ^ 2)).sum) / l.length

/-- The manually built confidence band of `holt_winters_forecast`:
lower = forecast - 1.96 * sigma and upper = forecast + 1.96 * sigma, the
one sigma value applied at every horizon step. -/
def conf_int (forecast : List ℚ) (sigma : ℚ) : List (ℚ × ℚ) :=
  forecast.map (fun f => (f - 49 / 25 * sigma, f + 49 / 25 * sigma))

/-- The function `holt_winters_forecast`.  The exponential-smoothing fit is
the external statsmodels routine, passed in as `fit` (returning the point
forecasts and the in-sample fit residuals); `std` is numpy's standard
deviation, applied to those residuals.  Modelled from the spec: the
optimizer's input validation (section 4.3) — fewer than
2 * seasonal_periods = 24 observations is a model-fit failure; the
repository contains neither external routine. -/
def holt_winters_forecast (fit : List ℚ → List ℚ × List ℚ) (std : List ℚ → ℚ)
    (data : List ℚ) : Except Err (List ℚ × List (ℚ × ℚ)) :=
  if data.length < 24 then .error .ModelFitError
  else
    let fr := fit data
    .ok (fr.1, conf_int fr.1 (std fr.2))

/-- AnalysisBundle: the result dictionary of `run_analysis`. -/
structure Bundle where
  time_series : List (Date × ℚ)
  forecast : List ℚ
  confInterval : List (ℚ × ℚ)
  macd : List ℚ
  signal : List ℚ
  trend_buckets : List String
  monthly_avg : List (Nat × ℚ)
  best_month : Nat
  deriving DecidableEq, Repr

/-- The function `run_analysis` on one category's filtered records:
aggregate by month, forecast (an error there aborts the whole run before
anything else is computed), MACD with trend buckets, and the best-buy
mapping.  There is no check anywhere that the input is nonempty. -/
def run_analysis (fit : List ℚ → List ℚ × List ℚ) (std : List ℚ → ℚ)
    (category_data : List Obs) : Except Err Bundle :=
  let monthly_data := sum_by_month category_data
  let time_series := monthly_data.map (fun p => p.2)
  match holt_winters_forecast fit std time_series with
  | .error e => .error e
  | .ok fc =>
    let m := calculate_macd time_series
    let macd_diff := List.zipWith (fun a b => a - b) m.1 m.2
    let bb := calculate_best_buy_time monthly_data
    .ok { time_series := monthly_data, forecast := fc.1, confInterval := fc.2,
          macd := m.1, signal := m.2,
          trend_buckets := macd_diff.map bucket_macd_trends,
          monthly_avg := bb.1, best_month := bb.2 }

/-- Percentage change as computed at lines 186 to 188: plain float
arithmetic, in which a zero denominator yields a value (numpy returns an
infinity) and never an exception.  The embedding uses rational division,
total with x / 0 = 0. -/
def percentage_change (initial final : ℚ) : ℚ := ((final - initial) / initial) * 100

/-- Modelled from the spec: the checked percentage change of sections 4.6
and 7, failing with DivisionByZeroError when the initial value is zero.
Comparison definition for claim C3 only; the program computes the total
`percentage_change` above instead. -/
def percentage_change_spec (initial final : ℚ) : Except Err ℚ :=
  if initial = 0 then .error .DivisionByZeroError
  else .ok (((final - initial) / initial) * 100)

/-- Forecast-outlook selection of the two-category final read out
(lines 396 to 404): three branches on the signs of the two percentage
changes, each naming one category. -/
def forecast_outlook (c1 c2 : String) (pc1 pc2 : ℚ) : String :=
  if pc1 < 0 ∧ pc2 < 0 then (if pc2 > pc1 then c2 else c1)
  else if pc1 > 0 ∧ pc2 > 0 then (if pc1 > pc2 then c1 else c2)
  else (if pc1 > pc2 then c1 else c2)

/-- Leading-segment test on character lists. -/
def chars_lead : List Char → List Char → Bool
  | [], _ => true
  | _ :: _, [] => false
  | a :: as, b :: bs => a = b && chars_lead as bs

/-- Substring containment on character lists, the semantics of Python's
`needle in haystack` on strings. -/
def chars_contain (needle : List Char) : List Char → Bool
  | [] => needle.isEmpty
  | b :: rest => chars_lead needle (b :: rest) || chars_contain needle rest

/-- The membership test `'Upward' in trend` of the final read out. -/
def contains_upward (t : String) : Bool := chars_contain "Upward".data t.data

/-- Momentum-trend comparison of the two-category final read out
(line 408): the first category is named exactly when the first category's
own most recent bucket contains 'Upward'; the second category's bucket is
never consulted. -/
def momentum_better (c1 c2 t1 t2 : String) : String :=
  if contains_upward t1 then c1 else c2

/-- Degenerate stand-in for the external fit routine, used only to evaluate
the pipeline's control flow on concrete inputs. -/
def fit0 : List ℚ → List ℚ × List ℚ := fun _ => ([], [])

/-- Degenerate stand-in for the external standard deviation routine. -/
def std0 : List ℚ → ℚ := fun _ => 0

/-- Concrete cleaned dataset for claim C1: two January 2020 records of one
category with values 1 and 3. -/
def recs_c1 : List Obs := [⟨"A", ⟨2020, 1⟩, 1⟩, ⟨"A", ⟨2020, 1⟩, 3⟩]

/-- Concrete one-record dataset used to instantiate claim C1's theorem. -/
def recs_w1 : List Obs := [⟨"A", ⟨2020, 1⟩, 2⟩]

/-- Concrete dataset with only category B, used to instantiate claim C2's
theorem at a category with no matching records. -/
def obs_w2 : List Obs := [⟨"B", ⟨2020, 1⟩, 1⟩]

/-- Concrete raw one-row frame for claim C8. -/
def raw_c8 : RawRow := ⟨"Pokemon", 2020, .name "March", 5, none⟩

/-- The state of claim C8's raw frame after `clean_data` has run on it:
Month overwritten with 3, Date filled in with March 2020. -/
def mut_c8 : List RawRow := [⟨"Pokemon", 2020, .num 3, 5, some ⟨2020, 3⟩⟩]

/-! ## Helper lemmas -/

/-- Sums of pointwise-added maps split. -/
theorem sum_map_addQ {K : Type} (ks : List K) (g h : K → ℚ) :
    (ks.map (fun k => g k + h k)).sum = (ks.map g).sum + (ks.map h).sum := by
  induction ks with
  | nil => simp
  | cons k ks ih => simp only [List.map_cons, List.sum_cons, ih]; ring

/-- A sum of indicator terms over keys not containing the probe is zero. -/
theorem sum_map_ite_zero {K : Type} [DecidableEq K] (x : K) (c : ℚ) :
    ∀ ks : List K, x ∉ ks → (ks.map (fun k => if x = k then c else 0)).sum = 0 := by
  intro ks
  induction ks with
  | nil => intro _; simp
  | cons k ks ih =>
    intro hx
    have hne : x ≠ k := fun h => hx (h ▸ List.mem_cons_self k ks)
    have hrest : x ∉ ks := fun h => hx (List.mem_cons_of_mem _ h)
    simp [hne, ih hrest]

/-- A sum of indicator terms over a duplicate-free key list containing the
probe exactly picks out the payload. -/
theorem sum_map_ite_one {K : Type} [DecidableEq K] (x : K) (c : ℚ) :
    ∀ ks : List K, ks.Nodup → x ∈ ks →
      (ks.map (fun k => if x = k then c else 0)).sum = c := by
  intro ks
  induction ks with
  | nil => intro _ hx; cases hx
  | cons k ks ih =>
    intro hnd hx
    rcases List.mem_cons.mp hx with hxk | hxs
    · subst hxk
      simp [sum_map_ite_zero x c ks (List.nodup_cons.mp hnd).1]
    · have hne : x ≠ k := by
        intro h
        exact (List.nodup_cons.mp hnd).1 (h ▸ hxs)
      simp [hne, ih (List.nodup_cons.mp hnd).2 hxs]

/-- Grouping conserves sums: summing the per-key filtered sums over a
duplicate-free key list that covers every element gives the total sum. -/
theorem sum_groups_eq {α K : Type} [DecidableEq K] (f : α → K) (v : α → ℚ) :
    ∀ (l : List α) (ks : List K), ks.Nodup → (∀ a ∈ l, f a ∈ ks) →
      (ks.map (fun k => ((l.filter (fun a => f a = k)).map v).sum)).sum
        = (l.map v).sum := by
  intro l
  induction l with
  | nil =>
    intro ks _ _
    simp
  | cons a l ih =>
    intro ks hnd hcov
    have hstep : ∀ k ∈ ks,
        (((a :: l).filter (fun x => f x = k)).map v).sum
          = ((l.filter (fun x => f x = k)).map v).sum + (if f a = k then v a else 0) := by
      intro k _
      by_cases h : f a = k
      · simp [List.filter_cons, h]; ring
      · simp [List.filter_cons, h]
    rw [List.map_congr_left hstep, sum_map_addQ,
      ih ks hnd (fun x hx => hcov x (List.mem_cons_of_mem a hx)),
      sum_map_ite_one (f a) (v a) ks hnd (hcov a (List.mem_cons_self a l))]
    simp [add_comm]

/-- Specification of the idxmin fold: its result is the seed or a list
entry, and its value is minimal among the seed and all entries. -/
theorem idxminGo_spec :
    ∀ (l : List (Nat × ℚ)) (b : Nat × ℚ),
      (idxminGo b l = b ∨ idxminGo b l ∈ l) ∧ (idxminGo b l).2 ≤ b.2 ∧
        ∀ p ∈ l, (idxminGo b l).2 ≤ p.2 := by
  intro l
  induction l with
  | nil => intro b; exact ⟨Or.inl rfl, le_refl _, fun p hp => absurd hp (List.not_mem_nil p)⟩
  | cons q rest ih =>
    intro b
    by_cases h : q.2 < b.2
    · have hrec := ih q
      have hres : idxminGo b (q :: rest) = idxminGo q rest := by
        simp [idxminGo, h]
      refine ⟨?_, ?_, ?_⟩
      · rcases hrec.1 with heq | hmem
        · exact Or.inr (by rw [hres, heq]; exact List.mem_cons_self q rest)
        · exact Or.inr (by rw [hres]; exact List.mem_cons_of_mem q hmem)
      · rw [hres]; exact le_trans hrec.2.1 (le_of_lt h)
      · intro p hp
        rw [hres]
        rcases List.mem_cons.mp hp with hpq | hpr
        · rw [hpq]; exact hrec.2.1
        · exact hrec.2.2 p hpr
    · have hrec := ih b
      have hres : idxminGo b (q :: rest) = idxminGo b rest := by
        simp [idxminGo, h]
      refine ⟨?_, ?_, ?_⟩
      · rcases hrec.1 with heq | hmem
        · exact Or.inl (hres.trans heq)
        · exact Or.inr (by rw [hres]; exact List.mem_cons_of_mem q hmem)
      · rw [hres]; exact hrec.2.1
      · intro p hp
        rw [hres]
        rcases List.mem_cons.mp hp with hpq | hpr
        · rw [hpq]; exact le_trans hrec.2.1 (le_of_not_lt h)
        · exact hrec.2.2 p hpr

/-! ## Claim theorems -/

/-- Claim C4: the bucket classifier selects exactly one bucket, its choice
is characterized by the first-match-wins ranges of the ordered condition
table, the five conditions are exhaustive over the (rational) inputs, and
the default label 'Neutral' is never selected. -/
theorem claim_C4 (x : ℚ) :
    (bucket_macd_trends x = "High Upward" ↔ 1 / 50 < x) ∧
    (bucket_macd_trends x = "Medium Upward" ↔ 1 / 200 < x ∧ x ≤ 1 / 50) ∧
    (bucket_macd_trends x = "Low Upward" ↔ -(1 / 200) < x ∧ x ≤ 1 / 200) ∧
    (bucket_macd_trends x = "Low Downward" ↔ -(1 / 50) < x ∧ x ≤ -(1 / 200)) ∧
    (bucket_macd_trends x = "High Downward" ↔ x ≤ -(1 / 50)) ∧
    bucket_macd_trends x ≠ "Neutral" := by
  unfold bucket_macd_trends
  split_ifs with h1 h2 h3 h4 h5
  · exact ⟨iff_of_true rfl h1,
      iff_of_false (by decide) (by rintro ⟨_, h⟩; linarith),
      iff_of_false (by decide) (by rintro ⟨_, h⟩; linarith),
      iff_of_false (by decide) (by rintro ⟨_, h⟩; linarith),
      iff_of_false (by decide) (by intro h; linarith),
      by decide⟩
  · exact ⟨iff_of_false (by decide) (fun h => h1 h),
      iff_of_true rfl ⟨h2, le_of_not_lt h1⟩,
      iff_of_false (by decide) (by rintro ⟨_, h⟩; linarith),
      iff_of_false (by decide) (by rintro ⟨_, h⟩; linarith),
      iff_of_false (by decide) (by intro h; linarith),
      by decide⟩
  · exact ⟨iff_of_false (by decide) (fun h => h1 h),
      iff_of_false (by decide) (by rintro ⟨h, _⟩; exact h2 h),
      iff_of_true rfl ⟨h3, le_of_not_lt h2⟩,
      iff_of_false (by decide) (by rintro ⟨_, h⟩; linarith),
      iff_of_false (by decide) (by intro h; linarith),
      by decide⟩
  · exact ⟨iff_of_false (by decide) (fun h => h1 h),
      iff_of_false (by decide) (by rintro ⟨h, _⟩; exact h2 h),
      iff_of_false (by decide) (by rintro ⟨h, _⟩; exact h3 h),
      iff_of_true rfl ⟨h4, le_of_not_lt h3⟩,
      iff_of_false (by decide) (by intro h; linarith),
      by decide⟩
  · exact ⟨iff_of_false (by decide) (fun h => h1 h),
      iff_of_false (by decide) (by rintro ⟨h, _⟩; exact h2 h),
      iff_of_false (by decide) (by rintro ⟨h, _⟩; exact h3 h),
      iff_of_false (by decide) (by rintro ⟨_, h⟩; linarith),
      iff_of_true rfl h5,
      by decide⟩
  · exact absurd (le_of_not_lt h4) h5

/-- Claim C4 instantiated: a concrete macd_diff value above the top
threshold lands in the High Upward bucket. -/
theorem claim_C4_witness : bucket_macd_trends 1 = "High Upward" :=
  (claim_C4 1).1.mpr (by norm_num)

/-- Claim C6: aggregation conserves the total — the monthly sums of
`sum_by_month` add up to the sum of every record's market value. -/
theorem claim_C6 (l : List Obs) :
    ((sum_by_month l).map (fun p => p.2)).sum = (l.map (fun o => o.value)).sum := by
  unfold sum_by_month
  rw [List.map_map]
  exact sum_groups_eq (fun o => o.date) (fun o => o.value) l _
    ((List.perm_insertionSort dateLE _).nodup_iff.mpr (List.nodup_dedup _))
    (fun a ha => by
      rw [List.mem_insertionSort]
      exact List.mem_dedup.mpr (List.mem_map_of_mem _ ha))

/-- Claim C3 is false as stated: at a zero last observed value the code
still produces a numeric percentage change (numpy float division returns
an infinity, never an exception; the rational embedding returns the
total-division value 0), whereas the checked computation the claim
describes would fail with DivisionByZeroError. -/
theorem claim_C3_counterexample :
    percentage_change 0 7 = 0 ∧
    percentage_change_spec 0 7 = Except.error Err.DivisionByZeroError := by
  constructor
  · unfold percentage_change; norm_num
  · rfl

/-- Claim C3 (amended): for a nonzero last observed value the reported
percentage change equals the stated formula (equivalently
100 * final / initial - 100), and at a zero last observed value the
computation still yields a number instead of failing — the program defines
no DivisionByZeroError. -/
theorem claim_C3_amended (initial final : ℚ) :
    (initial ≠ 0 → percentage_change initial final = 100 * final / initial - 100) ∧
    percentage_change 0 final = 0 := by
  constructor
  · intro h
    unfold percentage_change
    field_simp
    ring
  · unfold percentage_change
    norm_num

/-- Claim C3's theorem instantiated at the last observed values 2 and 0. -/
theorem claim_C3_witness :
    percentage_change 2 3 = 100 * 3 / 2 - 100 ∧ percentage_change 0 3 = 0 :=
  ⟨(claim_C3_amended 2 3).1 (by norm_num), (claim_C3_amended 0 3).2⟩

/-- Claim C2 is false as stated: with no matching records the pipeline does
not fail with EmptyCategoryError — the empty series reaches the forecaster,
whose model-fit failure is what aborts the run. -/
theorem claim_C2_counterexample :
    run_analysis fit0 std0 [] = Except.error Err.ModelFitError ∧
    Err.ModelFitError ≠ Err.EmptyCategoryError := by
  exact ⟨rfl, by decide⟩

/-- Claim C2 (amended): run_analysis performs no empty-category check: when
the category filter matches nothing, the empty series is handed to the
forecaster, and the forecaster's model-fit error on the degenerate input is
what aborts the run — the program defines no EmptyCategoryError. -/
theorem claim_C2_amended (fit : List ℚ → List ℚ × List ℚ) (std : List ℚ → ℚ)
    (data : List Obs) (c : String)
    (hempty : data.filter (fun o => o.category = c) = []) :
    run_analysis fit std (data.filter (fun o => o.category = c))
      = Except.error Err.ModelFitError := by
  rw [hempty]
  rfl

/-- Claim C2's theorem instantiated: category A selects no record of the
concrete all-B dataset, and the run ends in the forecaster's error. -/
theorem claim_C2_witness :
    obs_w2.filter (fun o => o.category = "A") = [] ∧
    run_analysis fit0 std0 (obs_w2.filter (fun o => o.category = "A"))
      = Except.error Err.ModelFitError :=
  ⟨by decide, claim_C2_amended fit0 std0 obs_w2 "A" (by decide)⟩

/-- Claim C9: whenever the two percentage changes differ, the final read
out names the category with the strictly higher change as the better
forecast outlook; for two negative changes that is the category with the
smaller-magnitude decrease. -/
theorem claim_C9 (c1 c2 : String) (pc1 pc2 : ℚ) (hne : pc1 ≠ pc2) :
    (forecast_outlook c1 c2 pc1 pc2 = if pc1 > pc2 then c1 else c2) ∧
    (pc1 < 0 → pc2 < 0 → |pc2| < |pc1| → forecast_outlook c1 c2 pc1 pc2 = c2) := by
  have habs : pc1 < 0 → pc2 < 0 → |pc2| < |pc1| → pc2 > pc1 := by
    intro h1 h2 h3
    rw [abs_of_neg h1, abs_of_neg h2] at h3
    linarith
  constructor
  · unfold forecast_outlook
    rcases lt_or_gt_of_ne hne with hlt | hgt
    · have hn : ¬ pc1 > pc2 := by linarith
      split_ifs with hb1 hb2 <;> simp_all
    · split_ifs with hb1 hb2 <;> simp_all <;> linarith
  · intro h1 h2 h3
    have hgt := habs h1 h2 h3
    unfold forecast_outlook
    rw [if_pos ⟨h1, h2⟩, if_pos hgt]

/-- Claim C9's theorem instantiated at two negative changes -10 and -5:
the second category, with the smaller-magnitude decrease, is named. -/
theorem claim_C9_witness :
    forecast_outlook "A" "B" (-10) (-5) = "B" :=
  (claim_C9 "A" "B" (-10) (-5) (by norm_num)).2 (by norm_num) (by norm_num)
    (by rw [abs_of_neg (by norm_num : (-5 : ℚ) < 0),
            abs_of_neg (by norm_num : (-10 : ℚ) < 0)]; norm_num)

/-- Claim C10: in the two-category momentum comparison, when both most
recent buckets contain 'Upward' the first category is named, when neither
does the second is named, and the decision never depends on the second
category's bucket — only on whether the first category's bucket contains
the substring 'Upward'. -/
theorem claim_C10 (c1 c2 t1 t2 : String) :
    (contains_upward t1 = true → contains_upward t2 = true →
      momentum_better c1 c2 t1 t2 = c1) ∧
    (contains_upward t1 = false → contains_upward t2 = false →
      momentum_better c1 c2 t1 t2 = c2) ∧
    (∀ u : String, momentum_better c1 c2 t1 t2 = momentum_better c1 c2 t1 u) := by
  refine ⟨fun h _ => ?_, fun h _ => ?_, fun u => rfl⟩
  · unfold momentum_better
    rw [h]
    rfl
  · unfold momentum_better
    rw [h]
    rfl

/-- Claim C10's theorem instantiated at two upward buckets and at two
downward buckets. -/
theorem claim_C10_witness :
    momentum_better "A" "B" "High Upward" "Low Upward" = "A" ∧
    momentum_better "A" "B" "High Downward" "Low Downward" = "B" :=
  ⟨(claim_C10 "A" "B" "High Upward" "Low Upward").1 (by decide) (by decide),
   (claim_C10 "A" "B" "High Downward" "Low Downward").2.1 (by decide) (by decide)⟩

/-- Claim C5: with sigma the standard deviation of the in-sample fit
residuals — characterized by 0 ≤ sigma together with sigma squared equal
to the population variance of the residuals — every confidence-band entry
brackets its forecast point, and the band width is the same constant
2 * 1.96 * sigma at every horizon step of the run. -/
theorem claim_C5 (fc resid : List ℚ) (sigma : ℚ)
    (hnn : 0 ≤ sigma) (hsq : sigma * sigma = pvariance resid)
    (i : Nat) (hi : i < (conf_int fc sigma).length) (hif : i < fc.length) :
    (conf_int fc sigma)[i].1 ≤ fc[i] ∧ fc[i] ≤ (conf_int fc sigma)[i].2 ∧
      (conf_int fc sigma)[i].2 - (conf_int fc sigma)[i].1 = 2 * (49 / 25) * sigma := by
  have hs : 0 ≤ 49 / 25 * sigma := mul_nonneg (by norm_num) hnn
  unfold conf_int at hi ⊢
  simp only [List.getElem_map]
  exact ⟨by linarith, by linarith, by ring⟩

/-- Claim C5's theorem instantiated at a two-step forecast with residuals
of standard deviation one. -/
theorem claim_C5_witness :
    (conf_int [3, 5] 1)[0].1 ≤ ([3, 5] : List ℚ)[0] ∧
    ([3, 5] : List ℚ)[0] ≤ (conf_int [3, 5] 1)[0].2 ∧
    (conf_int [3, 5] 1)[0].2 - (conf_int [3, 5] 1)[0].1 = 2 * (49 / 25) * 1 :=
  claim_C5 [3, 5] [1, -1] 1 (by norm_num)
    (by norm_num [pvariance, mean]) 0 (by norm_num [conf_int]) (by norm_num)

/-- Claim C1 is false as stated: on two records of the same month the
produced SeasonalAverages entry is the mean of the per-month aggregated
totals (here 4), not the mean of the individual record market values
(here 2) as the claim requires. -/
theorem claim_C1_counterexample :
    (calculate_best_buy_time (sum_by_month recs_c1)).1 = [(1, 4)] ∧
    seasonal_mean_claim recs_c1 1 = 2 ∧ ((4 : ℚ) ≠ 2) := by
  have hsum : sum_by_month recs_c1 = [(⟨2020, 1⟩, 4)] := by
    norm_num [sum_by_month, recs_c1, List.dedup, List.pwFilter, List.insertionSort,
      List.orderedInsert, List.filter]
  refine ⟨?_, ?_, by norm_num⟩
  · rw [hsum]
    norm_num [calculate_best_buy_time, List.dedup, List.pwFilter, List.insertionSort,
      List.orderedInsert, List.filter, mean]
  · norm_num [seasonal_mean_claim, recs_c1, List.filter, mean]

/-- Claim C1 (amended): the SeasonalAverages mapping produced for the
best-buy view assigns to each calendar month number the arithmetic mean of
the per-date aggregated monthly totals (the sum_by_month values) whose
date falls in that month — not of the individual record values — and
best_month carries a value that is minimal in the mapping (pandas idxmin,
earliest entry on ties). -/
theorem claim_C1_amended (recs : List Obs) (hne : recs ≠ []) :
    (∀ p ∈ (calculate_best_buy_time (sum_by_month recs)).1,
        p.2 = mean (((sum_by_month recs).filter
          (fun r => r.1.month = p.1)).map (fun r => r.2))) ∧
    ∃ bv : ℚ, ((calculate_best_buy_time (sum_by_month recs)).2, bv)
          ∈ (calculate_best_buy_time (sum_by_month recs)).1 ∧
        ∀ p ∈ (calculate_best_buy_time (sum_by_month recs)).1, bv ≤ p.2 := by
  constructor
  · intro p hp
    simp only [calculate_best_buy_time, List.mem_map] at hp
    obtain ⟨m, _, hm⟩ := hp
    rw [← hm]
  · obtain ⟨o, recs2, rfl⟩ := List.exists_cons_of_ne_nil hne
    have hdm : o.date ∈
        List.insertionSort dateLE ((o :: recs2).map (fun x => x.date)).dedup := by
      rw [List.mem_insertionSort]
      exact List.mem_dedup.mpr (List.mem_map_of_mem _ (List.mem_cons_self o recs2))
    have hrow : (o.date,
        (((o :: recs2).filter (fun x => x.date = o.date)).map (fun x => x.value)).sum)
        ∈ sum_by_month (o :: recs2) := by
      unfold sum_by_month
      exact List.mem_map_of_mem _ hdm
    set rows := sum_by_month (o :: recs2) with hrows
    obtain ⟨r0, rows2, hr⟩ := List.exists_cons_of_ne_nil (List.ne_nil_of_mem hrow)
    have hmk : r0.1.month ∈
        List.insertionSort (α := Nat) (fun a b => a ≤ b)
          (rows.map (fun r => r.1.month)).dedup := by
      rw [List.mem_insertionSort]
      refine List.mem_dedup.mpr (List.mem_map_of_mem _ ?_)
      rw [hr]
      exact List.mem_cons_self r0 rows2
    have havgmem : (r0.1.month,
        mean ((rows.filter (fun r => r.1.month = r0.1.month)).map (fun r => r.2)))
        ∈ (calculate_best_buy_time rows).1 := by
      simp only [calculate_best_buy_time]
      exact List.mem_map_of_mem _ hmk
    obtain ⟨q, rest, hq⟩ := List.exists_cons_of_ne_nil (List.ne_nil_of_mem havgmem)
    have hcb : (calculate_best_buy_time rows).2 = idxmin ((calculate_best_buy_time rows).1) :=
      rfl
    have hspec := idxminGo_spec rest q
    refine ⟨(idxminGo q rest).2, ?_, ?_⟩
    · rw [hcb, hq]
      simp only [idxmin]
      rw [Prod.mk.eta]
      rcases hspec.1 with heq | hmem
      · rw [heq]; exact List.mem_cons_self q rest
      · exact List.mem_cons_of_mem q hmem
    · intro p hp
      rw [hq] at hp
      rcases List.mem_cons.mp hp with hpq | hpr
      · rw [hpq]; exact hspec.2.1
      · exact hspec.2.2 p hpr

/-- Claim C1's theorem instantiated at the concrete one-record dataset. -/
theorem claim_C1_witness :
    recs_w1 ≠ [] ∧
    ((∀ p ∈ (calculate_best_buy_time (sum_by_month recs_w1)).1,
        p.2 = mean (((sum_by_month recs_w1).filter
          (fun r => r.1.month = p.1)).map (fun r => r.2))) ∧
     ∃ bv : ℚ, ((calculate_best_buy_time (sum_by_month recs_w1)).2, bv)
          ∈ (calculate_best_buy_time (sum_by_month recs_w1)).1 ∧
        ∀ p ∈ (calculate_best_buy_time (sum_by_month recs_w1)).1, bv ≤ p.2) :=
  ⟨by decide, claim_C1_amended recs_w1 (by decide)⟩

/-- Inversion of the Month conversion of a single row. -/
theorem month_to_num_ok (r r2 : RawRow) (h : month_to_num r = Except.ok r2) :
    ∃ s m, r.month = MonthCell.name s ∧ parse_month_name s = some m ∧
      r2 = { r with month := MonthCell.num m } := by
  obtain ⟨cat, yr, mon, mv, dt⟩ := r
  cases mon with
  | name s =>
    simp only [month_to_num] at h
    cases hps : parse_month_name s with
    | none =>
      simp only [hps] at h
      cases h
    | some m =>
      simp only [hps] at h
      cases h
      exact ⟨s, m, rfl, hps, rfl⟩
  | num n =>
    simp only [month_to_num] at h
    cases h

/-- Inversion of the column-wise Month conversion: on success, output rows
correspond one to one with input rows, each input month name parsed and
written back as its number. -/
theorem parse_months_ok :
    ∀ (data conv : List RawRow), parse_months data = Except.ok conv →
      conv.length = data.length ∧
      ∀ i : Nat, (hi : i < data.length) → (hic : i < conv.length) →
        ∃ s m, data[i].month = MonthCell.name s ∧ parse_month_name s = some m ∧
          conv[i] = { data[i] with month := MonthCell.num m } := by
  intro data
  induction data with
  | nil =>
    intro conv h
    simp only [parse_months] at h
    cases h
    exact ⟨rfl, fun i hi _ => absurd hi (by simp)⟩
  | cons r rest ih =>
    intro conv h
    simp only [parse_months] at h
    cases hmn : month_to_num r with
    | error e => rw [hmn] at h; cases h
    | ok r2 =>
      rw [hmn] at h
      cases hrest : parse_months rest with
      | error e => rw [hrest] at h; cases h
      | ok rest2 =>
        rw [hrest] at h
        cases h
        obtain ⟨hlen, hspec⟩ := ih rest2 hrest
        obtain ⟨s, m, hs, hpm, hr2⟩ := month_to_num_ok r r2 hmn
        constructor
        · simp [hlen]
        · intro i hi hic
          cases i with
          | zero =>
            refine ⟨s, m, ?_, hpm, ?_⟩
            · simpa using hs
            · simpa using hr2
          | succ j =>
            have hj : j < rest.length := by
              simpa using hi
            have hjc : j < rest2.length := by
              simpa using hic
            obtain ⟨s2, m2, hs2, hpm2, hc2⟩ := hspec j hj hjc
            exact ⟨s2, m2, by simpa using hs2, hpm2, by simpa using hc2⟩

/-- Claim C8 is false as stated: clean_data writes the parsed month number
and the new Date column into the very frame it was passed, so after the
call the argument no longer equals the raw input. -/
theorem claim_C8_counterexample :
    clean_data [raw_c8] = Except.ok (mut_c8, mut_c8) ∧ mut_c8 ≠ [raw_c8] := by
  exact ⟨rfl, by decide⟩

/-- Claim C8 (amended): clean_data is not a pure transform — on success the
argument frame has been mutated in place: it still holds its rows in their
original order with Category, Year and market_value untouched, but with
Month overwritten by the parsed month number and the derived Date column
filled in; only the sorted frame that is returned is a new value, a
by-date-ordered permutation of the mutated argument. -/
theorem claim_C8_amended (data mutRows res : List RawRow)
    (h : clean_data data = Except.ok (mutRows, res)) :
    mutRows.length = data.length ∧
    (∀ i : Nat, (hi : i < data.length) → (him : i < mutRows.length) →
      mutRows[i].category = data[i].category ∧ mutRows[i].year = data[i].year ∧
      mutRows[i].marketValue = data[i].marketValue ∧
      ∃ s m, data[i].month = MonthCell.name s ∧ parse_month_name s = some m ∧
        mutRows[i].month = MonthCell.num m ∧ mutRows[i].date = some ⟨data[i].year, m⟩) ∧
    res.Perm mutRows ∧ List.Sorted rawLE res := by
  unfold clean_data at h
  cases hp : parse_months data with
  | error e => rw [hp] at h; cases h
  | ok conv =>
    rw [hp] at h
    cases h
    obtain ⟨hlen, hspec⟩ := parse_months_ok data conv hp
    refine ⟨by simp [hlen], ?_, List.perm_insertionSort _ _,
      List.sorted_insertionSort _ _⟩
    intro i hi him
    have hic : i < conv.length := by simpa using him
    obtain ⟨s, m, hs, hpm, hc⟩ := hspec i hi hic
    have hm : (conv.map assign_date)[i] = assign_date conv[i] :=
      List.getElem_map assign_date
    rw [hm, hc]
    exact ⟨rfl, rfl, rfl, s, m, hs, hpm, rfl, rfl⟩

/-- Claim C8's theorem instantiated at the concrete one-row frame. -/
theorem claim_C8_witness :
    clean_data [raw_c8] = Except.ok (mut_c8, mut_c8) ∧
    (mut_c8.length = [raw_c8].length ∧
     (∀ i : Nat, (hi : i < [raw_c8].length) → (him : i < mut_c8.length) →
       mut_c8[i].category = [raw_c8][i].category ∧
       mut_c8[i].year = [raw_c8][i].year ∧
       mut_c8[i].marketValue = [raw_c8][i].marketValue ∧
       ∃ s m, [raw_c8][i].month = MonthCell.name s ∧ parse_month_name s = some m ∧
         mut_c8[i].month = MonthCell.num m ∧ mut_c8[i].date = some ⟨[raw_c8][i].year, m⟩) ∧
     mut_c8.Perm mut_c8 ∧ List.Sorted rawLE mut_c8) :=
  ⟨rfl, claim_C8_amended [raw_c8] mut_c8 mut_c8 rfl⟩

end Compass
